import Mathlib

/-!
Shallow embedding of the SRS (Spaced Repetition System) core of the
`vocala` repository, and proofs about its specification.

Model conventions:
- Python `int` fields are `ℤ`; Python `float` fields are `ℚ` (exact
  rational arithmetic in place of IEEE floats).
- Optional fields (`Optional[float]`, `Optional[int]`, nullable datetimes)
  are `Option _`; `None` is `none`.
- Timestamps are integers measured in hours (`timedelta(days = d)` adds
  `24 * d`, `timedelta(hours = h)` adds `h`); `datetime.utcnow()` becomes
  an explicit `now : ℤ` parameter threaded through each operation.
- Python `int(x)` on a float truncates toward zero: `pyInt`.
- Python truthiness of an `Optional[float]` (used in `_update_status` as
  `self.accuracy_rate and ...`) is `False` for `None` and for `0.0`:
  modelled by explicit `match` with a `q ≠ 0` test.
- Rational arithmetic inside the executable definitions uses the
  kernel-reducible wrappers `qadd`/`qsub`/`qmul`/`qdiv` (the standard
  `ℚ` operations are `@[irreducible]`, which would block evaluation of
  the model on concrete inputs); the lemmas `qadd_eq` … identify them
  with the standard operations, and all theorem statements use the
  standard ones.
- The SQLAlchemy store is a list of records; queries are list filters,
  object mutation plus commit is keyed replacement.
-/

namespace Vocala

/-- Addition on `ℚ`, computable by the kernel. -/
def qadd (a b : ℚ) : ℚ :=
  Rat.divInt (a.num * b.den + b.num * a.den) (a.den * b.den)

/-- Subtraction on `ℚ`, computable by the kernel. -/
def qsub (a b : ℚ) : ℚ :=
  Rat.divInt (a.num * b.den - b.num * a.den) (a.den * b.den)

/-- Multiplication on `ℚ`, computable by the kernel. -/
def qmul (a b : ℚ) : ℚ :=
  Rat.divInt (a.num * b.num) (a.den * b.den)

/-- Division of two integers as a rational, computable by the kernel. -/
def qdiv (m n : ℤ) : ℚ := Rat.divInt m n

/-- Python `int(x)` for a rational: truncation toward zero. -/
def pyInt (q : ℚ) : ℤ := if q < 0 then ⌈q⌉ else ⌊q⌋

/-- The SRS-relevant state of one `UserWordProgress` row
(`src/app/db/models/user_word_progress.py`). Fields not touched by the
SRS engine (favorites, flags, notes, audit timestamps) are omitted. -/
structure UserWordProgress where
  user_id : ℤ
  word_id : ℤ
  status : String
  srs_level : ℤ
  srs_interval : ℤ
  ease_factor : ℚ
  total_reviews : ℤ
  correct_reviews : ℤ
  consecutive_correct : ℤ
  consecutive_incorrect : ℤ
  accuracy_rate : Option ℚ
  average_response_time : Option ℚ
  difficulty_rating : Option ℤ
  first_correct_at : Option ℤ
  mastered_at : Option ℤ
  next_review_at : ℤ
  last_reviewed_at : Option ℤ
deriving DecidableEq

namespace UserWordProgress

/-- A freshly created row: the model's column defaults
(`status="new"`, `srs_level=0`, `srs_interval=1`, `ease_factor=2.5`,
counters 0, nullable fields NULL, `next_review_at=now`). -/
def create (u w now : ℤ) : UserWordProgress where
  user_id := u
  word_id := w
  status := "new"
  srs_level := 0
  srs_interval := 1
  ease_factor := mkRat 5 2
  total_reviews := 0
  correct_reviews := 0
  consecutive_correct := 0
  consecutive_incorrect := 0
  accuracy_rate := none
  average_response_time := none
  difficulty_rating := none
  first_correct_at := none
  mastered_at := none
  next_review_at := now
  last_reviewed_at := none

/-- Method `calculate_accuracy_rate`: returns the accuracy and (when
`total_reviews ≠ 0`) stores it on the record; when `total_reviews == 0`
the method returns `0.0` without writing `accuracy_rate`. -/
def calculate_accuracy_rate (r : UserWordProgress) : ℚ × UserWordProgress :=
  if r.total_reviews = 0 then (0, r)
  else
    let accuracy : ℚ := qdiv r.correct_reviews r.total_reviews
    (accuracy, { r with accuracy_rate := some accuracy })

/-- Method `_update_srs_success`: level/interval ladder, then ease bump on a
streak; the interval update in the `srs_level ≥ 2` branch uses the ease
factor before the bump, and `int(...)` truncates. -/
def update_srs_success (r : UserWordProgress) : UserWordProgress :=
  let r1 :=
    if r.srs_level = 0 then { r with srs_level := 1, srs_interval := 1 }
    else if r.srs_level = 1 then { r with srs_level := 2, srs_interval := 6 }
    else { r with srs_level := r.srs_level + 1,
                  srs_interval := pyInt (qmul (r.srs_interval : ℚ) r.ease_factor) }
  if r1.consecutive_correct ≥ 2 then
    { r1 with ease_factor := min (qadd r1.ease_factor (mkRat 1 10)) 3 }
  else r1

/-- Method `_update_srs_failure`: drop a level (not below 0), reset interval,
ease penalty on a streak. -/
def update_srs_failure (r : UserWordProgress) : UserWordProgress :=
  let r1 := { r with srs_level := max 0 (r.srs_level - 1), srs_interval := 1 }
  if r1.consecutive_incorrect ≥ 2 then
    { r1 with ease_factor := max (qsub r1.ease_factor (mkRat 2 10)) (mkRat 13 10) }
  else r1

/-- The Python condition
`self.accuracy_rate and self.accuracy_rate >= 0.9 and self.srs_level >= 5
and self.consecutive_correct >= 3`: `accuracy_rate` is truthy (not `None`,
not `0.0`) and the numeric comparisons hold. -/
def mastery_cond (r : UserWordProgress) : Bool :=
  match r.accuracy_rate with
  | none => false
  | some a => decide (a ≠ 0) && decide (a ≥ mkRat 9 10)
      && decide (r.srs_level ≥ 5) && decide (r.consecutive_correct ≥ 3)

/-- The Python condition
`self.total_reviews >= 5 and self.accuracy_rate and
self.accuracy_rate < 0.3 and self.consecutive_incorrect >= 3`; note the
truthiness test on `accuracy_rate` (`0.0` fails it). -/
def failed_cond (r : UserWordProgress) : Bool :=
  decide (r.total_reviews ≥ 5)
    && (match r.accuracy_rate with
        | none => false
        | some a => decide (a ≠ 0) && decide (a < mkRat 3 10))
    && decide (r.consecutive_incorrect ≥ 3)

/-- Method `_update_status`: new→learning, then the mastered `if` / demoted
`elif` / failed `elif` chain; `mastered_at` is written only when unset. -/
def update_status (now : ℤ) (r : UserWordProgress) : UserWordProgress :=
  let r1 := if r.status = "new" ∧ r.total_reviews > 0
    then { r with status := "learning" } else r
  if mastery_cond r1 then
    { r1 with status := "mastered",
              mastered_at := if r1.mastered_at = none then some now else r1.mastered_at }
  else if r1.status = "mastered" ∧ r1.consecutive_incorrect ≥ 2 then
    { r1 with status := "review" }
  else if failed_cond r1 then
    { r1 with status := "failed" }
  else r1

/-- Method `_schedule_next_review`: due time from the final status (hours). -/
def schedule_next_review (now : ℤ) (r : UserWordProgress) : UserWordProgress :=
  if r.status = "mastered" then
    { r with next_review_at := now + 24 * (r.srs_interval * 2) }
  else if r.status = "failed" then
    { r with next_review_at := now + 4 }
  else
    { r with next_review_at := now + 24 * r.srs_interval }

/-- The first half of `record_review`: increment `total_reviews`, stamp
`last_reviewed_at`, then branch on the outcome — on correct, bump
`correct_reviews`/`consecutive_correct`, clear `consecutive_incorrect`,
stamp `first_correct_at` if unset and run `_update_srs_success`; on
incorrect, bump `consecutive_incorrect`, clear `consecutive_correct` and
run `_update_srs_failure`. -/
def srs_stage (r : UserWordProgress) (is_correct : Bool) (now : ℤ) :
    UserWordProgress :=
  let r0 := { r with total_reviews := r.total_reviews + 1,
                     last_reviewed_at := some now }
  if is_correct then
    let a := { r0 with correct_reviews := r0.correct_reviews + 1,
                       consecutive_correct := r0.consecutive_correct + 1,
                       consecutive_incorrect := 0 }
    let b := if a.first_correct_at = none
      then { a with first_correct_at := some now } else a
    update_srs_success b
  else
    let a := { r0 with consecutive_incorrect := r0.consecutive_incorrect + 1,
                       consecutive_correct := 0 }
    update_srs_failure a

/-- EMA stage: the `response_time` block of `record_review`: first sample is stored
directly, later samples via the EMA `0.8 * old + 0.2 * new`. -/
def update_average_response_time (r : UserWordProgress)
    (response_time : Option ℚ) : UserWordProgress :=
  match response_time with
  | none => r
  | some rt =>
    match r.average_response_time with
    | none => { r with average_response_time := some rt }
    | some avg =>
      let ema := qadd (qmul (mkRat 4 5) avg) (qmul (mkRat 1 5) rt)
      { r with average_response_time := some ema }

/-- Difficulty stage: the `difficulty` block of `record_review`: overwrite when given. -/
def update_difficulty (r : UserWordProgress) (difficulty : Option ℤ) :
    UserWordProgress :=
  match difficulty with
  | none => r
  | some d => { r with difficulty_rating := some d }

/-- Method `record_review(is_correct, response_time, difficulty)`: counters and
SRS branch, accuracy, EMA response time, difficulty overwrite, status
transition, scheduling — in the source's order. -/
def record_review (r : UserWordProgress) (is_correct : Bool)
    (response_time : Option ℚ) (difficulty : Option ℤ) (now : ℤ) :
    UserWordProgress :=
  let r1 := srs_stage r is_correct now
  let r2 := (calculate_accuracy_rate r1).2
  let r3 := update_average_response_time r2 response_time
  let r4 := update_difficulty r3 difficulty
  let r5 := update_status now r4
  schedule_next_review now r5

end UserWordProgress

/-- One review event fed to `record_review`. -/
structure ReviewInput where
  is_correct : Bool
  response_time : Option ℚ
  difficulty : Option ℤ
  now : ℤ
deriving DecidableEq

/-- A sequence of `record_review` calls applied in order. -/
def apply_reviews (r : UserWordProgress) (xs : List ReviewInput) :
    UserWordProgress :=
  xs.foldl (fun acc x => acc.record_review x.is_correct x.response_time x.difficulty x.now) r

/-! ### Store and service layer

`UserWordProgressRepository` / `SRSService`
(`src/app/db/repositories/user_word_progress.py`,
`src/app/services/srs_service.py`). The database is a list of rows;
`SELECT ... WHERE` is a filter, `ORDER BY next_review_at` is a sort on
that key, committing a mutated row writes it back by its
(user, word) key. The external word supply
(`WordManagementService.get_or_generate_words`) is an oracle parameter
`supply : ℤ → List ℤ → List ℤ` taking the requested count and the
excluded word ids. -/

/-- Query `get_by_user_and_word`: the unique-indexed point query. -/
def get_by_user_and_word (store : List UserWordProgress) (u w : ℤ) :
    Option UserWordProgress :=
  store.find? (fun r => r.user_id == u && r.word_id == w)

/-- Operation `create_or_get_progress`: fetch, create only when absent. Returns the
record and the updated store. -/
def create_or_get_progress (store : List UserWordProgress) (u w now : ℤ) :
    UserWordProgress × List UserWordProgress :=
  match get_by_user_and_word store u w with
  | some p => (p, store)
  | none =>
    let p := UserWordProgress.create u w now
    (p, store ++ [p])

/-- Query `get_words_due_for_review`: rows of the user with
`next_review_at <= now`, ordered by `next_review_at`. -/
def get_words_due_for_review (store : List UserWordProgress) (u now : ℤ) :
    List UserWordProgress :=
  List.insertionSort (fun a b => a.next_review_at ≤ b.next_review_at)
    (store.filter (fun r => r.user_id == u && r.next_review_at ≤ now))

/-- Service method `record_word_review`: point lookup; on a miss, log and
return `None` with nothing written; on a hit, run `record_review` on the
row and commit it. -/
def record_word_review (store : List UserWordProgress) (u w : ℤ)
    (is_correct : Bool) (response_time : Option ℚ) (difficulty_rating : Option ℤ)
    (now : ℤ) : Option UserWordProgress × List UserWordProgress :=
  match get_by_user_and_word store u w with
  | none => (none, store)
  | some p =>
    let p1 := p.record_review is_correct response_time difficulty_rating now
    (some p1, store.map (fun r =>
      if r.user_id == u && r.word_id == w then p1 else r))

/-- Service method `_get_user_learned_word_ids`: word ids of all of the
user's progress rows (not only the due ones). -/
def get_user_learned_word_ids (store : List UserWordProgress) (u : ℤ) :
    List ℤ :=
  (store.filter (fun r => r.user_id == u)).map (fun r => r.word_id)

/-- Service method `assign_words_to_user`: `create_or_get_progress` for each
word in order; returns the progress list and the updated store. -/
def assign_words_to_user (store : List UserWordProgress) (u now : ℤ)
    (words : List ℤ) : List UserWordProgress × List UserWordProgress :=
  words.foldl
    (fun acc w =>
      let pr := create_or_get_progress acc.2 u w now
      (acc.1 ++ [pr.1], pr.2))
    ([], store)

/-- The dict returned by `get_daily_learning_words`: exactly the keys
`review_words`, `new_words`, `total_count` built by the source. -/
structure DailyLearningResult where
  review_words : List UserWordProgress
  new_words : List ℤ
  total_count : ℕ
deriving DecidableEq

/-- Service method `get_daily_learning_words`: due reviews, then
`remaining_slots = max(0, daily_word_count - review_count)` new words
from the supply excluding already-known word ids, assigned to the user;
`total_count` is the sum of the two list lengths. -/
def get_daily_learning_words (store : List UserWordProgress)
    (supply : ℤ → List ℤ → List ℤ) (u daily_word_count now : ℤ)
    (include_reviews include_new : Bool) :
    DailyLearningResult × List UserWordProgress :=
  let review_words := if include_reviews
    then get_words_due_for_review store u now else []
  if include_new then
    let review_count : ℤ := review_words.length
    let remaining_slots : ℤ := max 0 (daily_word_count - review_count)
    if remaining_slots > 0 then
      let learned_word_ids := get_user_learned_word_ids store u
      let new_words := supply remaining_slots learned_word_ids
      let store1 := if new_words.isEmpty then store
        else (assign_words_to_user store u now new_words).2
      (⟨review_words, new_words, review_words.length + new_words.length⟩, store1)
    else
      (⟨review_words, [], review_words.length + 0⟩, store)
  else
    (⟨review_words, [], review_words.length + 0⟩, store)

/-! ### Bridge lemmas

The kernel-reducible arithmetic wrappers agree with the standard `ℚ`
operations, and the `mkRat` literals with the usual numerals. -/

theorem qadd_eq (a b : ℚ) : qadd a b = a + b := by
  conv_rhs => rw [← Rat.num_divInt_den a, ← Rat.num_divInt_den b]
  rw [Rat.divInt_add_divInt _ _
    (Int.natCast_ne_zero.mpr a.den_nz) (Int.natCast_ne_zero.mpr b.den_nz)]
  rfl

theorem qsub_eq (a b : ℚ) : qsub a b = a - b := by
  rw [sub_eq_add_neg]
  conv_rhs => rw [← Rat.num_divInt_den a, ← Rat.num_divInt_den b]
  rw [Rat.neg_divInt, Rat.divInt_add_divInt _ _
    (Int.natCast_ne_zero.mpr a.den_nz) (Int.natCast_ne_zero.mpr b.den_nz)]
  unfold qsub
  rw [sub_eq_add_neg, ← neg_mul]

theorem qmul_eq (a b : ℚ) : qmul a b = a * b := by
  conv_rhs => rw [← Rat.num_divInt_den a, ← Rat.num_divInt_den b]
  rw [Rat.divInt_mul_divInt']
  rfl

theorem qdiv_eq (m n : ℤ) : qdiv m n = (m : ℚ) / (n : ℚ) :=
  Rat.divInt_eq_div m n

theorem pyInt_eq_floor {q : ℚ} (h : 0 ≤ q) : pyInt q = ⌊q⌋ := by
  unfold pyInt
  rw [if_neg (not_lt.mpr h)]

theorem mkRat_five_two : (mkRat 5 2 : ℚ) = 5/2 := by
  rw [Rat.mkRat_eq_div]; norm_num

theorem mkRat_one_ten : (mkRat 1 10 : ℚ) = 1/10 := by
  rw [Rat.mkRat_eq_div]; norm_num

theorem mkRat_two_ten : (mkRat 2 10 : ℚ) = 1/5 := by
  rw [Rat.mkRat_eq_div]; norm_num

theorem mkRat_thirteen_ten : (mkRat 13 10 : ℚ) = 13/10 := by
  rw [Rat.mkRat_eq_div]; norm_num

theorem mkRat_nine_ten : (mkRat 9 10 : ℚ) = 9/10 := by
  rw [Rat.mkRat_eq_div]; norm_num

theorem mkRat_three_ten : (mkRat 3 10 : ℚ) = 3/10 := by
  rw [Rat.mkRat_eq_div]; norm_num

namespace UserWordProgress

/-! ### Stage decomposition lemmas -/

@[simp] theorem calculate_accuracy_rate_snd (r : UserWordProgress) :
    (calculate_accuracy_rate r).2 =
      { r with accuracy_rate := if r.total_reviews = 0 then r.accuracy_rate
          else some (qdiv r.correct_reviews r.total_reviews) } := by
  unfold calculate_accuracy_rate
  split_ifs <;> rfl

@[simp] theorem update_average_response_time_eq (r : UserWordProgress)
    (rt : Option ℚ) :
    update_average_response_time r rt =
      { r with average_response_time :=
          match rt, r.average_response_time with
          | none, _ => r.average_response_time
          | some v, none => some v
          | some v, some avg =>
            some (qadd (qmul (mkRat 4 5) avg) (qmul (mkRat 1 5) v)) } := by
  unfold update_average_response_time
  rcases rt with _ | v
  · rfl
  · rcases h : r.average_response_time with _ | avg <;> simp [h]

@[simp] theorem update_difficulty_eq (r : UserWordProgress) (d : Option ℤ) :
    update_difficulty r d =
      { r with difficulty_rating :=
          match d with
          | none => r.difficulty_rating
          | some x => some x } := by
  unfold update_difficulty
  cases d <;> rfl

@[simp] theorem srs_stage_true_eq (r : UserWordProgress) (now : ℤ) :
    srs_stage r true now =
      (let lvl := if r.srs_level = 0 then 1
        else if r.srs_level = 1 then 2 else r.srs_level + 1
      let ivl := if r.srs_level = 0 then 1
        else if r.srs_level = 1 then 6
        else pyInt (qmul (r.srs_interval : ℚ) r.ease_factor)
      let ef := if r.consecutive_correct + 1 ≥ 2
        then min (qadd r.ease_factor (mkRat 1 10)) 3 else r.ease_factor
      { r with total_reviews := r.total_reviews + 1,
               last_reviewed_at := some now,
               correct_reviews := r.correct_reviews + 1,
               consecutive_correct := r.consecutive_correct + 1,
               consecutive_incorrect := 0,
               first_correct_at := if r.first_correct_at = none
                 then some now else r.first_correct_at,
               srs_level := lvl, srs_interval := ivl, ease_factor := ef }) := by
  unfold srs_stage update_srs_success
  dsimp only
  rw [if_pos rfl]
  split_ifs <;> rfl

@[simp] theorem srs_stage_false_eq (r : UserWordProgress) (now : ℤ) :
    srs_stage r false now =
      (let ef := if r.consecutive_incorrect + 1 ≥ 2
        then max (qsub r.ease_factor (mkRat 2 10)) (mkRat 13 10) else r.ease_factor
      { r with total_reviews := r.total_reviews + 1,
               last_reviewed_at := some now,
               consecutive_incorrect := r.consecutive_incorrect + 1,
               consecutive_correct := 0,
               srs_level := max 0 (r.srs_level - 1), srs_interval := 1,
               ease_factor := ef }) := by
  unfold srs_stage update_srs_failure
  dsimp only
  rw [if_neg Bool.false_ne_true]
  split_ifs <;> rfl

@[simp] theorem update_status_srs_level (now : ℤ) (r : UserWordProgress) :
    (update_status now r).srs_level = r.srs_level := by
  unfold update_status; dsimp only; split_ifs <;> rfl

@[simp] theorem update_status_srs_interval (now : ℤ) (r : UserWordProgress) :
    (update_status now r).srs_interval = r.srs_interval := by
  unfold update_status; dsimp only; split_ifs <;> rfl

@[simp] theorem update_status_ease_factor (now : ℤ) (r : UserWordProgress) :
    (update_status now r).ease_factor = r.ease_factor := by
  unfold update_status; dsimp only; split_ifs <;> rfl

@[simp] theorem update_status_total_reviews (now : ℤ) (r : UserWordProgress) :
    (update_status now r).total_reviews = r.total_reviews := by
  unfold update_status; dsimp only; split_ifs <;> rfl

@[simp] theorem update_status_correct_reviews (now : ℤ) (r : UserWordProgress) :
    (update_status now r).correct_reviews = r.correct_reviews := by
  unfold update_status; dsimp only; split_ifs <;> rfl

@[simp] theorem update_status_consecutive_correct (now : ℤ) (r : UserWordProgress) :
    (update_status now r).consecutive_correct = r.consecutive_correct := by
  unfold update_status; dsimp only; split_ifs <;> rfl

@[simp] theorem update_status_consecutive_incorrect (now : ℤ) (r : UserWordProgress) :
    (update_status now r).consecutive_incorrect = r.consecutive_incorrect := by
  unfold update_status; dsimp only; split_ifs <;> rfl

@[simp] theorem update_status_accuracy_rate (now : ℤ) (r : UserWordProgress) :
    (update_status now r).accuracy_rate = r.accuracy_rate := by
  unfold update_status; dsimp only; split_ifs <;> rfl

@[simp] theorem update_status_user_id (now : ℤ) (r : UserWordProgress) :
    (update_status now r).user_id = r.user_id := by
  unfold update_status; dsimp only; split_ifs <;> rfl

@[simp] theorem update_status_word_id (now : ℤ) (r : UserWordProgress) :
    (update_status now r).word_id = r.word_id := by
  unfold update_status; dsimp only; split_ifs <;> rfl

@[simp] theorem schedule_next_review_status (now : ℤ) (r : UserWordProgress) :
    (schedule_next_review now r).status = r.status := by
  unfold schedule_next_review; split_ifs <;> rfl

@[simp] theorem schedule_next_review_srs_level (now : ℤ) (r : UserWordProgress) :
    (schedule_next_review now r).srs_level = r.srs_level := by
  unfold schedule_next_review; split_ifs <;> rfl

@[simp] theorem schedule_next_review_srs_interval (now : ℤ) (r : UserWordProgress) :
    (schedule_next_review now r).srs_interval = r.srs_interval := by
  unfold schedule_next_review; split_ifs <;> rfl

@[simp] theorem schedule_next_review_ease_factor (now : ℤ) (r : UserWordProgress) :
    (schedule_next_review now r).ease_factor = r.ease_factor := by
  unfold schedule_next_review; split_ifs <;> rfl

@[simp] theorem schedule_next_review_total_reviews (now : ℤ) (r : UserWordProgress) :
    (schedule_next_review now r).total_reviews = r.total_reviews := by
  unfold schedule_next_review; split_ifs <;> rfl

@[simp] theorem schedule_next_review_correct_reviews (now : ℤ) (r : UserWordProgress) :
    (schedule_next_review now r).correct_reviews = r.correct_reviews := by
  unfold schedule_next_review; split_ifs <;> rfl

@[simp] theorem schedule_next_review_consecutive_correct (now : ℤ) (r : UserWordProgress) :
    (schedule_next_review now r).consecutive_correct = r.consecutive_correct := by
  unfold schedule_next_review; split_ifs <;> rfl

@[simp] theorem schedule_next_review_consecutive_incorrect (now : ℤ) (r : UserWordProgress) :
    (schedule_next_review now r).consecutive_incorrect = r.consecutive_incorrect := by
  unfold schedule_next_review; split_ifs <;> rfl

@[simp] theorem schedule_next_review_accuracy_rate (now : ℤ) (r : UserWordProgress) :
    (schedule_next_review now r).accuracy_rate = r.accuracy_rate := by
  unfold schedule_next_review; split_ifs <;> rfl

@[simp] theorem schedule_next_review_mastered_at (now : ℤ) (r : UserWordProgress) :
    (schedule_next_review now r).mastered_at = r.mastered_at := by
  unfold schedule_next_review; split_ifs <;> rfl

@[simp] theorem schedule_next_review_next_review_at (now : ℤ) (r : UserWordProgress) :
    (schedule_next_review now r).next_review_at =
      (if r.status = "mastered" then now + 24 * (r.srs_interval * 2)
       else if r.status = "failed" then now + 4
       else now + 24 * r.srs_interval) := by
  unfold schedule_next_review; split_ifs <;> rfl

@[simp] theorem schedule_next_review_user_id (now : ℤ) (r : UserWordProgress) :
    (schedule_next_review now r).user_id = r.user_id := by
  unfold schedule_next_review; split_ifs <;> rfl

@[simp] theorem schedule_next_review_word_id (now : ℤ) (r : UserWordProgress) :
    (schedule_next_review now r).word_id = r.word_id := by
  unfold schedule_next_review; split_ifs <;> rfl

/-- Changing only `status` does not change `mastery_cond`. -/
theorem mastery_cond_set_status (r : UserWordProgress) (s : String) :
    mastery_cond { r with status := s } = mastery_cond r := rfl

/-- Changing only `status` does not change `failed_cond`. -/
theorem failed_cond_set_status (r : UserWordProgress) (s : String) :
    failed_cond { r with status := s } = failed_cond r := rfl

/-- The status produced by `_update_status`, as a function of the
incoming record. -/
theorem update_status_status_eq (now : ℤ) (r : UserWordProgress) :
    (update_status now r).status =
      (let st1 := if r.status = "new" ∧ r.total_reviews > 0
        then "learning" else r.status
      if mastery_cond r then "mastered"
      else if st1 = "mastered" ∧ r.consecutive_incorrect ≥ 2 then "review"
      else if failed_cond r then "failed"
      else st1) := by
  unfold update_status
  dsimp only
  by_cases h1 : r.status = "new" ∧ r.total_reviews > 0
  · rw [if_pos h1, if_pos h1, mastery_cond_set_status, failed_cond_set_status]
    split_ifs <;> rfl
  · rw [if_neg h1, if_neg h1]
    split_ifs <;> rfl

/-- Value of the `mastered_at` timestamp produced by `_update_status`. -/
theorem update_status_mastered_at (now : ℤ) (r : UserWordProgress) :
    (update_status now r).mastered_at =
      (if mastery_cond r then
        (if r.mastered_at = none then some now else r.mastered_at)
       else r.mastered_at) := by
  unfold update_status
  dsimp only
  by_cases h1 : r.status = "new" ∧ r.total_reviews > 0
  · rw [if_pos h1, mastery_cond_set_status]
    split_ifs <;> rfl
  · rw [if_neg h1]
    split_ifs <;> rfl

end UserWordProgress

/-! ### Claims -/

open UserWordProgress

/-- C1: For every record, `record_review` applies the SRS update
exactly as specified: on a correct outcome, `srs_level 0 ↦ (1, 1)`,
`srs_level 1 ↦ (2, 6)`, and `srs_level ≥ 2 ↦ (level+1,
⌊srs_interval * ease_factor⌋)` using the ease factor before any bump in
the same call, after which `ease_factor` is raised by `0.1` capped at
`3.0` exactly when the post-increment `consecutive_correct ≥ 2`; on an
incorrect outcome `srs_level` becomes `max 0 (srs_level - 1)`,
`srs_interval` becomes `1`, and `ease_factor` is lowered by `0.2` floored
at `1.3` exactly when the post-increment `consecutive_incorrect ≥ 2`. -/
theorem record_review_applies_srs_update
    (r : UserWordProgress) (rt : Option ℚ) (dr : Option ℤ) (now : ℤ)
    (hIvl : 1 ≤ r.srs_interval) (hEase : 0 ≤ r.ease_factor) :
    ((r.srs_level = 0 →
        (r.record_review true rt dr now).srs_level = 1 ∧
        (r.record_review true rt dr now).srs_interval = 1) ∧
     (r.srs_level = 1 →
        (r.record_review true rt dr now).srs_level = 2 ∧
        (r.record_review true rt dr now).srs_interval = 6) ∧
     (2 ≤ r.srs_level →
        (r.record_review true rt dr now).srs_level = r.srs_level + 1 ∧
        (r.record_review true rt dr now).srs_interval =
          ⌊(r.srs_interval : ℚ) * r.ease_factor⌋) ∧
     (r.record_review true rt dr now).ease_factor =
        (if r.consecutive_correct + 1 ≥ 2
         then min (r.ease_factor + 1/10) 3 else r.ease_factor)) ∧
    ((r.record_review false rt dr now).srs_level = max 0 (r.srs_level - 1) ∧
     (r.record_review false rt dr now).srs_interval = 1 ∧
     (r.record_review false rt dr now).ease_factor =
        (if r.consecutive_incorrect + 1 ≥ 2
         then max (r.ease_factor - 1/5) (13/10) else r.ease_factor)) := by
  have hq : (0:ℚ) ≤ (r.srs_interval : ℚ) * r.ease_factor :=
    mul_nonneg (by exact_mod_cast (by omega : (0:ℤ) ≤ r.srs_interval)) hEase
  refine ⟨⟨fun h => ?_, fun h => ?_, fun h => ?_, ?_⟩, ?_, ?_, ?_⟩
  · constructor <;> simp [record_review, h]
  · constructor <;> simp [record_review, h]
  · have h0 : ¬ r.srs_level = 0 := by omega
    have h1 : ¬ r.srs_level = 1 := by omega
    constructor
    · simp [record_review, h0, h1]
    · simp [record_review, h0, h1, qmul_eq]
      exact pyInt_eq_floor hq
  · simp [record_review, qadd_eq, mkRat_one_ten]
  · simp [record_review]
  · simp [record_review]
  · simp [record_review, qsub_eq, mkRat_two_ten, mkRat_thirteen_ten]

/-- Witness for C1 at a freshly created record: the first correct review
takes `srs_level 0` to `(level 1, interval 1)`. -/
theorem record_review_applies_srs_update_witness :
    ((UserWordProgress.create 1 2 0).record_review true none none 0).srs_level = 1 ∧
    ((UserWordProgress.create 1 2 0).record_review true none none 0).srs_interval = 1 :=
  (record_review_applies_srs_update (UserWordProgress.create 1 2 0) none none 0
    (by decide) (by decide)).1.1 rfl

/-- C5: After the status update of a `record_review` call,
`next_review_at` is set from the final status: `now + 2 * srs_interval`
days when `mastered`, `now + 4` hours when `failed`, and
`now + srs_interval` days otherwise (one day is 24 hours). -/
theorem record_review_schedules_next_review
    (r : UserWordProgress) (c : Bool) (rt : Option ℚ) (dr : Option ℤ) (now : ℤ) :
    ((r.record_review c rt dr now).status = "mastered" →
      (r.record_review c rt dr now).next_review_at =
        now + 24 * ((r.record_review c rt dr now).srs_interval * 2)) ∧
    ((r.record_review c rt dr now).status = "failed" →
      (r.record_review c rt dr now).next_review_at = now + 4) ∧
    ((r.record_review c rt dr now).status ≠ "mastered" →
     (r.record_review c rt dr now).status ≠ "failed" →
      (r.record_review c rt dr now).next_review_at =
        now + 24 * (r.record_review c rt dr now).srs_interval) := by
  refine ⟨fun h => ?_, fun h => ?_, fun h1 h2 => ?_⟩
  · simp only [record_review, schedule_next_review_status] at h
    simp only [record_review, schedule_next_review_next_review_at,
      schedule_next_review_srs_interval, update_status_srs_interval]
    rw [if_pos h]
  · simp only [record_review, schedule_next_review_status] at h
    simp only [record_review, schedule_next_review_next_review_at]
    have h' : ¬ (update_status now (update_difficulty (update_average_response_time
        ((calculate_accuracy_rate (srs_stage r c now)).2) rt) dr)).status = "mastered" := by
      rw [h]; decide
    rw [if_neg h', if_pos h]
  · simp only [record_review, schedule_next_review_status] at h1 h2
    simp only [record_review, schedule_next_review_next_review_at,
      schedule_next_review_srs_interval, update_status_srs_interval]
    rw [if_neg h1, if_neg h2]

/-- Witness for C5: one incorrect review on a fresh record ends in status
`learning`, so the next review is `now + srs_interval` days away. -/
theorem record_review_schedules_next_review_witness :
    ((UserWordProgress.create 1 2 0).record_review false none none 7).next_review_at
      = 7 + 24 * ((UserWordProgress.create 1 2 0).record_review false none none 7).srs_interval :=
  (record_review_schedules_next_review (UserWordProgress.create 1 2 0) false none none 7).2.2
    (by decide) (by decide)

/-- Condition `mastery_cond` in arithmetic terms, given a stored accuracy value. -/
theorem mastery_cond_eq_true_iff (r : UserWordProgress) (a : ℚ)
    (h : r.accuracy_rate = some a) :
    mastery_cond r = true ↔
      (a ≥ 9/10 ∧ r.srs_level ≥ 5 ∧ r.consecutive_correct ≥ 3) := by
  unfold mastery_cond
  rw [h]
  simp only [Bool.and_eq_true, decide_eq_true_eq, mkRat_nine_ten]
  constructor
  · rintro ⟨⟨⟨-, h1⟩, h2⟩, h3⟩
    exact ⟨h1, h2, h3⟩
  · rintro ⟨h1, h2, h3⟩
    exact ⟨⟨⟨by intro h0; rw [h0] at h1; norm_num at h1, h1⟩, h2⟩, h3⟩

/-- Condition `failed_cond` in arithmetic terms, given a stored accuracy value;
the `a ≠ 0` conjunct is the Python truthiness test. -/
theorem failed_cond_eq_true_iff (r : UserWordProgress) (a : ℚ)
    (h : r.accuracy_rate = some a) :
    failed_cond r = true ↔
      (r.total_reviews ≥ 5 ∧ a ≠ 0 ∧ a < 3/10 ∧ r.consecutive_incorrect ≥ 3) := by
  unfold failed_cond
  rw [h]
  simp only [Bool.and_eq_true, decide_eq_true_eq, mkRat_three_ten]
  constructor
  · rintro ⟨⟨h1, h2, h3⟩, h4⟩
    exact ⟨h1, h2, h3, h4⟩
  · rintro ⟨h1, h2, h3, h4⟩
    exact ⟨⟨h1, h2, h3⟩, h4⟩

/-- C4: The status-transition step follows the spec's priority
order: a `new` record with reviews moves to `learning` (when no later
rule fires); the mastered rule fires regardless of the new→learning
outcome (the override) and stamps `mastered_at` only if unset; otherwise
a `mastered` record with `consecutive_incorrect ≥ 2` is demoted to
`review` even when the failed condition also holds; otherwise the failed
rule may fire — so at most one of mastered / demotion / failed applies,
first match winning. -/
theorem update_status_priority (now : ℤ) (r : UserWordProgress) (a : ℚ)
    (hacc : r.accuracy_rate = some a) :
    (r.status = "new" → r.total_reviews > 0 →
      ¬(a ≥ 9/10 ∧ r.srs_level ≥ 5 ∧ r.consecutive_correct ≥ 3) →
      failed_cond r = false →
      (update_status now r).status = "learning") ∧
    ((a ≥ 9/10 ∧ r.srs_level ≥ 5 ∧ r.consecutive_correct ≥ 3) →
      (update_status now r).status = "mastered" ∧
      (update_status now r).mastered_at =
        (if r.mastered_at = none then some now else r.mastered_at)) ∧
    (¬(a ≥ 9/10 ∧ r.srs_level ≥ 5 ∧ r.consecutive_correct ≥ 3) →
     r.status = "mastered" → r.consecutive_incorrect ≥ 2 →
      (update_status now r).status = "review") ∧
    (¬(a ≥ 9/10 ∧ r.srs_level ≥ 5 ∧ r.consecutive_correct ≥ 3) →
     ¬(r.status = "mastered" ∧ r.consecutive_incorrect ≥ 2) →
     failed_cond r = true →
      (update_status now r).status = "failed") := by
  refine ⟨fun hn ht hM hF => ?_, fun hM => ?_, fun hM hs hci => ?_, fun hM hd hF => ?_⟩
  · have hm : ¬ mastery_cond r = true := by
      rw [mastery_cond_eq_true_iff r a hacc]; exact hM
    rw [update_status_status_eq]
    simp only [if_pos (And.intro hn ht), Bool.not_eq_true] at *
    rw [if_neg (by simp [hm]), if_neg (by simp), if_neg (by simp [hF])]
  · have hm : mastery_cond r = true := (mastery_cond_eq_true_iff r a hacc).mpr hM
    rw [update_status_status_eq, update_status_mastered_at]
    constructor
    · simp [hm]
    · rw [if_pos hm]
  · have hm : ¬ mastery_cond r = true := by
      rw [mastery_cond_eq_true_iff r a hacc]; exact hM
    rw [update_status_status_eq]
    have hn : ¬ (r.status = "new" ∧ r.total_reviews > 0) := by
      rintro ⟨h1, -⟩; rw [hs] at h1; exact absurd h1 (by decide)
    simp only [if_neg hn]
    rw [if_neg (by simp [hm]), if_pos (And.intro hs hci)]
  · have hm : ¬ mastery_cond r = true := by
      rw [mastery_cond_eq_true_iff r a hacc]; exact hM
    rw [update_status_status_eq]
    dsimp only
    by_cases hn : r.status = "new" ∧ r.total_reviews > 0
    · rw [if_pos hn, if_neg (by simp [hm]),
        if_neg (by rintro ⟨h1, -⟩; exact absurd h1 (by decide)), if_pos hF]
    · rw [if_neg hn, if_neg (by simp [hm]), if_neg hd, if_pos hF]

/-- Witness for C4: a mastered record with two consecutive misses and
sub-mastery accuracy is demoted to `review`. -/
theorem update_status_priority_witness :
    (update_status 9 { UserWordProgress.create 1 2 0 with
        status := "mastered", accuracy_rate := some (mkRat 1 2),
        consecutive_incorrect := 2 }).status = "review" :=
  (update_status_priority 9 _ (mkRat 1 2) rfl).2.2.1
    (by rw [← mkRat_nine_ten]; decide) rfl (by decide)

/-- C2: The code skips the `failed` transition whenever
`accuracy_rate == 0.0`: the guard `self.accuracy_rate and
self.accuracy_rate < 0.3 ...` is falsy at `0.0`. Five incorrect reviews
on a fresh record reach `total_reviews = 5`, `accuracy_rate = 0`,
`consecutive_incorrect = 5` — every condition of the spec's failed rule —
yet the status stays `learning` instead of becoming `failed`. -/
theorem failed_transition_skipped_at_zero_accuracy :
    (apply_reviews (UserWordProgress.create 1 2 0)
        (List.replicate 5 ⟨false, none, none, 0⟩)).total_reviews = 5 ∧
    (apply_reviews (UserWordProgress.create 1 2 0)
        (List.replicate 5 ⟨false, none, none, 0⟩)).correct_reviews = 0 ∧
    (apply_reviews (UserWordProgress.create 1 2 0)
        (List.replicate 5 ⟨false, none, none, 0⟩)).accuracy_rate = some 0 ∧
    (apply_reviews (UserWordProgress.create 1 2 0)
        (List.replicate 5 ⟨false, none, none, 0⟩)).consecutive_incorrect = 5 ∧
    (apply_reviews (UserWordProgress.create 1 2 0)
        (List.replicate 5 ⟨false, none, none, 0⟩)).status = "learning" := by
  decide

@[simp] theorem srs_stage_status (r : UserWordProgress) (c : Bool) (now : ℤ) :
    (srs_stage r c now).status = r.status := by
  cases c <;> simp

@[simp] theorem srs_stage_user_id (r : UserWordProgress) (c : Bool) (now : ℤ) :
    (srs_stage r c now).user_id = r.user_id := by
  cases c <;> simp

@[simp] theorem srs_stage_word_id (r : UserWordProgress) (c : Bool) (now : ℤ) :
    (srs_stage r c now).word_id = r.word_id := by
  cases c <;> simp

@[simp] theorem srs_stage_total_reviews (r : UserWordProgress) (c : Bool) (now : ℤ) :
    (srs_stage r c now).total_reviews = r.total_reviews + 1 := by
  cases c <;> simp

/-- Every way `_update_status` can set the status, together with what
the incoming status must have been. -/
theorem update_status_status_cases (now : ℤ) (r : UserWordProgress) :
    (update_status now r).status = "mastered" ∨
    ((update_status now r).status = "review" ∧ r.status = "mastered") ∨
    (update_status now r).status = "failed" ∨
    ((update_status now r).status = "learning" ∧ r.status = "new") ∨
    (update_status now r).status = r.status := by
  rw [update_status_status_eq]
  dsimp only
  by_cases hm : mastery_cond r = true
  · left; rw [if_pos hm]
  · rw [if_neg hm]
    by_cases h1 : r.status = "new" ∧ r.total_reviews > 0
    · rw [if_pos h1, if_neg (by rintro ⟨h, -⟩; exact absurd h (by decide))]
      by_cases hF : failed_cond r = true
      · right; right; left; rw [if_pos hF]
      · right; right; right; left
        rw [if_neg hF]
        exact ⟨rfl, h1.1⟩
    · rw [if_neg h1]
      by_cases hd : r.status = "mastered" ∧ r.consecutive_incorrect ≥ 2
      · right; left; rw [if_pos hd]; exact ⟨rfl, hd.1⟩
      · rw [if_neg hd]
        by_cases hF : failed_cond r = true
        · right; right; left; rw [if_pos hF]
        · right; right; right; right; rw [if_neg hF]

/-- The status cases of a whole `record_review` call, in terms of the
record's status before the call. -/
theorem record_review_status_cases (r : UserWordProgress) (c : Bool)
    (rt : Option ℚ) (dr : Option ℤ) (now : ℤ) :
    (r.record_review c rt dr now).status = "mastered" ∨
    ((r.record_review c rt dr now).status = "review" ∧ r.status = "mastered") ∨
    (r.record_review c rt dr now).status = "failed" ∨
    ((r.record_review c rt dr now).status = "learning" ∧ r.status = "new") ∨
    (r.record_review c rt dr now).status = r.status := by
  have hX : (update_difficulty (update_average_response_time
      ((calculate_accuracy_rate (srs_stage r c now)).2) rt) dr).status = r.status := by
    simp
  have h := update_status_status_cases now
    (update_difficulty (update_average_response_time
      ((calculate_accuracy_rate (srs_stage r c now)).2) rt) dr)
  rw [hX] at h
  simpa only [record_review, schedule_next_review_status] using h

@[simp] theorem apply_reviews_nil (r : UserWordProgress) :
    apply_reviews r [] = r := rfl

@[simp] theorem apply_reviews_cons (r : UserWordProgress) (x : ReviewInput)
    (xs : List ReviewInput) :
    apply_reviews r (x :: xs) =
      apply_reviews (r.record_review x.is_correct x.response_time x.difficulty x.now) xs := rfl

/-- One `record_review` call never produces status `new`, and produces
`learning` only from a `new` record. -/
theorem record_review_not_new_learning (r : UserWordProgress) (c : Bool)
    (rt : Option ℚ) (dr : Option ℤ) (now : ℤ)
    (h1 : r.status ≠ "new") (h2 : r.status ≠ "learning") :
    (r.record_review c rt dr now).status ≠ "new" ∧
    (r.record_review c rt dr now).status ≠ "learning" := by
  rcases record_review_status_cases r c rt dr now with
    hm | ⟨hr, -⟩ | hf | ⟨-, hs⟩ | hsame
  · rw [hm]; exact ⟨by decide, by decide⟩
  · rw [hr]; exact ⟨by decide, by decide⟩
  · rw [hf]; exact ⟨by decide, by decide⟩
  · exact absurd hs h1
  · rw [hsame]; exact ⟨h1, h2⟩

/-- No sequence of reviews brings a record whose status is neither `new`
nor `learning` back to either of those statuses. -/
theorem apply_reviews_not_new_learning (xs : List ReviewInput)
    (r : UserWordProgress) (h1 : r.status ≠ "new") (h2 : r.status ≠ "learning") :
    (apply_reviews r xs).status ≠ "new" ∧
    (apply_reviews r xs).status ≠ "learning" := by
  induction xs generalizing r with
  | nil => exact ⟨h1, h2⟩
  | cons x xs ih =>
    rw [apply_reviews_cons]
    have h := record_review_not_new_learning r x.is_correct
      x.response_time x.difficulty x.now h1 h2
    exact ih _ h.1 h.2

set_option maxRecDepth 8000 in
/-- C10 (counterexample): A fully reachable trace that refutes
"no sequence of `record_review` calls ever returns a failed record
to `review`": from a fresh record, one correct then four incorrect
reviews set status `failed`; thirty-five further correct reviews then
reach `mastered`, and two incorrect reviews demote the record to
`review`. -/
theorem failed_record_reaches_review :
    (apply_reviews (UserWordProgress.create 1 2 0)
      (⟨true, none, none, 0⟩ :: List.replicate 4 ⟨false, none, none, 0⟩)).status
        = "failed" ∧
    (apply_reviews (apply_reviews (UserWordProgress.create 1 2 0)
        (⟨true, none, none, 0⟩ :: List.replicate 4 ⟨false, none, none, 0⟩))
      (List.replicate 35 ⟨true, none, none, 0⟩ ++
        List.replicate 2 ⟨false, none, none, 0⟩)).status = "review" := by
  decide

/-- C10 (amended): A single `record_review` call on a `failed`
record can only leave it `failed` or move it to `mastered`, and no
sequence of calls ever returns it to `new` or `learning`; it can,
however, reach `review` later by first reaching `mastered` and then
being demoted. -/
theorem failed_record_single_step (r : UserWordProgress) (c : Bool)
    (rt : Option ℚ) (dr : Option ℤ) (now : ℤ) (xs : List ReviewInput)
    (h : r.status = "failed") :
    ((r.record_review c rt dr now).status = "failed" ∨
     (r.record_review c rt dr now).status = "mastered") ∧
    (apply_reviews r xs).status ≠ "new" ∧
    (apply_reviews r xs).status ≠ "learning" := by
  constructor
  · rcases record_review_status_cases r c rt dr now with
      hm | ⟨-, hs⟩ | hf | ⟨-, hs⟩ | hsame
    · right; exact hm
    · rw [h] at hs; exact absurd hs (by decide)
    · left; exact hf
    · rw [h] at hs; exact absurd hs (by decide)
    · left; rw [hsame, h]
  · exact apply_reviews_not_new_learning xs r
      (by rw [h]; decide) (by rw [h]; decide)

/-- Witness for the amended C10 at a concrete failed record. -/
theorem failed_record_single_step_witness :
    (({ UserWordProgress.create 1 2 0 with
        status := "failed" } : UserWordProgress).record_review false none none 3).status
        = "failed" ∨
    (({ UserWordProgress.create 1 2 0 with
        status := "failed" } : UserWordProgress).record_review false none none 3).status
        = "mastered" :=
  (failed_record_single_step _ false none none 3 [] rfl).1

/-- One `record_review` call preserves the SRS bounds and recomputes the
accuracy rate from the post-call counters. -/
theorem record_review_preserves_inv (r : UserWordProgress) (c : Bool)
    (rt : Option ℚ) (dr : Option ℤ) (now : ℤ)
    (h0 : 0 ≤ r.srs_level) (h1 : 1 ≤ r.srs_interval)
    (h2 : (13:ℚ)/10 ≤ r.ease_factor) (h3 : r.ease_factor ≤ 3)
    (h4 : 0 ≤ r.total_reviews) :
    0 ≤ (r.record_review c rt dr now).srs_level ∧
    1 ≤ (r.record_review c rt dr now).srs_interval ∧
    (13:ℚ)/10 ≤ (r.record_review c rt dr now).ease_factor ∧
    (r.record_review c rt dr now).ease_factor ≤ 3 ∧
    0 ≤ (r.record_review c rt dr now).total_reviews ∧
    (r.record_review c rt dr now).accuracy_rate =
      some (qdiv (r.record_review c rt dr now).correct_reviews
                 (r.record_review c rt dr now).total_reviews) := by
  have hne : ¬ r.total_reviews + 1 = 0 := by omega
  cases c
  · refine ⟨?_, ?_, ?_, ?_, ?_, ?_⟩
    · simp only [record_review, schedule_next_review_srs_level,
        update_status_srs_level, update_difficulty_eq,
        update_average_response_time_eq, calculate_accuracy_rate_snd,
        srs_stage_false_eq]
      omega
    · simp only [record_review, schedule_next_review_srs_interval,
        update_status_srs_interval, update_difficulty_eq,
        update_average_response_time_eq, calculate_accuracy_rate_snd,
        srs_stage_false_eq]
      omega
    · simp only [record_review, schedule_next_review_ease_factor,
        update_status_ease_factor, update_difficulty_eq,
        update_average_response_time_eq, calculate_accuracy_rate_snd,
        srs_stage_false_eq, qsub_eq, mkRat_two_ten, mkRat_thirteen_ten]
      split_ifs
      · exact le_max_right _ _
      · exact h2
    · simp only [record_review, schedule_next_review_ease_factor,
        update_status_ease_factor, update_difficulty_eq,
        update_average_response_time_eq, calculate_accuracy_rate_snd,
        srs_stage_false_eq, qsub_eq, mkRat_two_ten, mkRat_thirteen_ten]
      split_ifs
      · exact max_le (by linarith) (by norm_num)
      · exact h3
    · simp only [record_review, schedule_next_review_total_reviews,
        update_status_total_reviews, update_difficulty_eq,
        update_average_response_time_eq, calculate_accuracy_rate_snd,
        srs_stage_false_eq]
      omega
    · simp only [record_review, schedule_next_review_accuracy_rate,
        schedule_next_review_total_reviews, schedule_next_review_correct_reviews,
        update_status_accuracy_rate, update_status_total_reviews,
        update_status_correct_reviews, update_difficulty_eq,
        update_average_response_time_eq, calculate_accuracy_rate_snd,
        srs_stage_false_eq, if_neg hne]
  · refine ⟨?_, ?_, ?_, ?_, ?_, ?_⟩
    · simp only [record_review, schedule_next_review_srs_level,
        update_status_srs_level, update_difficulty_eq,
        update_average_response_time_eq, calculate_accuracy_rate_snd,
        srs_stage_true_eq]
      split_ifs <;> omega
    · simp only [record_review, schedule_next_review_srs_interval,
        update_status_srs_interval, update_difficulty_eq,
        update_average_response_time_eq, calculate_accuracy_rate_snd,
        srs_stage_true_eq, qmul_eq]
      have hcast : (1:ℚ) ≤ (r.srs_interval : ℚ) := by exact_mod_cast h1
      have hprod : (1:ℚ) ≤ (r.srs_interval : ℚ) * r.ease_factor := by nlinarith
      split_ifs
      · omega
      · omega
      · rw [pyInt_eq_floor (by linarith)]
        exact Int.le_floor.mpr (by exact_mod_cast hprod)
    · simp only [record_review, schedule_next_review_ease_factor,
        update_status_ease_factor, update_difficulty_eq,
        update_average_response_time_eq, calculate_accuracy_rate_snd,
        srs_stage_true_eq, qadd_eq, mkRat_one_ten]
      split_ifs
      · exact le_min (by linarith) (by norm_num)
      · exact h2
    · simp only [record_review, schedule_next_review_ease_factor,
        update_status_ease_factor, update_difficulty_eq,
        update_average_response_time_eq, calculate_accuracy_rate_snd,
        srs_stage_true_eq, qadd_eq, mkRat_one_ten]
      split_ifs
      · exact min_le_right _ _
      · exact h3
    · simp only [record_review, schedule_next_review_total_reviews,
        update_status_total_reviews, update_difficulty_eq,
        update_average_response_time_eq, calculate_accuracy_rate_snd,
        srs_stage_true_eq]
      omega
    · simp only [record_review, schedule_next_review_accuracy_rate,
        schedule_next_review_total_reviews, schedule_next_review_correct_reviews,
        update_status_accuracy_rate, update_status_total_reviews,
        update_status_correct_reviews, update_difficulty_eq,
        update_average_response_time_eq, calculate_accuracy_rate_snd,
        srs_stage_true_eq, if_neg hne]

/-- The SRS bounds plus the accuracy equation, carried through any
sequence of reviews. -/
theorem apply_reviews_inv (xs : List ReviewInput) (r : UserWordProgress)
    (h0 : 0 ≤ r.srs_level) (h1 : 1 ≤ r.srs_interval)
    (h2 : (13:ℚ)/10 ≤ r.ease_factor) (h3 : r.ease_factor ≤ 3)
    (h4 : 0 ≤ r.total_reviews)
    (h5 : 0 < r.total_reviews →
      r.accuracy_rate = some (qdiv r.correct_reviews r.total_reviews)) :
    0 ≤ (apply_reviews r xs).srs_level ∧
    1 ≤ (apply_reviews r xs).srs_interval ∧
    (13:ℚ)/10 ≤ (apply_reviews r xs).ease_factor ∧
    (apply_reviews r xs).ease_factor ≤ 3 ∧
    0 ≤ (apply_reviews r xs).total_reviews ∧
    (0 < (apply_reviews r xs).total_reviews →
      (apply_reviews r xs).accuracy_rate =
        some (qdiv (apply_reviews r xs).correct_reviews
                   (apply_reviews r xs).total_reviews)) := by
  induction xs generalizing r with
  | nil => exact ⟨h0, h1, h2, h3, h4, h5⟩
  | cons x xs ih =>
    rw [apply_reviews_cons]
    obtain ⟨g0, g1, g2, g3, g4, g5⟩ :=
      record_review_preserves_inv r x.is_correct x.response_time x.difficulty
        x.now h0 h1 h2 h3 h4
    exact ih _ g0 g1 g2 g3 g4 (fun _ => g5)

/-- C3: Starting from a freshly created record (`status=new`,
`srs_level=0`, `srs_interval=1`, `ease_factor=2.5`), after any sequence
of `record_review` calls, `srs_level ≥ 0`, `srs_interval ≥ 1`,
`ease_factor ∈ [1.3, 3.0]`, and `accuracy_rate` equals
`correct_reviews / total_reviews` whenever `total_reviews > 0`. -/
theorem srs_invariants (u w t0 : ℤ) (xs : List ReviewInput) :
    0 ≤ (apply_reviews (UserWordProgress.create u w t0) xs).srs_level ∧
    1 ≤ (apply_reviews (UserWordProgress.create u w t0) xs).srs_interval ∧
    (13:ℚ)/10 ≤ (apply_reviews (UserWordProgress.create u w t0) xs).ease_factor ∧
    (apply_reviews (UserWordProgress.create u w t0) xs).ease_factor ≤ 3 ∧
    (0 < (apply_reviews (UserWordProgress.create u w t0) xs).total_reviews →
      (apply_reviews (UserWordProgress.create u w t0) xs).accuracy_rate =
        some (((apply_reviews (UserWordProgress.create u w t0) xs).correct_reviews : ℚ) /
              ((apply_reviews (UserWordProgress.create u w t0) xs).total_reviews : ℚ))) := by
  obtain ⟨g0, g1, g2, g3, -, g5⟩ :=
    apply_reviews_inv xs (UserWordProgress.create u w t0)
      (le_refl 0) (le_refl 1)
      (by rw [show (UserWordProgress.create u w t0).ease_factor = mkRat 5 2 from rfl,
            mkRat_five_two]; norm_num)
      (by rw [show (UserWordProgress.create u w t0).ease_factor = mkRat 5 2 from rfl,
            mkRat_five_two]; norm_num)
      (le_refl 0)
      (fun h => absurd h (lt_irrefl 0))
  refine ⟨g0, g1, g2, g3, fun h => ?_⟩
  rw [g5 h, qdiv_eq]

/-- Witness for C3: after a single correct review the accuracy equation
holds with `total_reviews = 1`. -/
theorem srs_invariants_witness :
    (apply_reviews (UserWordProgress.create 1 2 0) [⟨true, none, none, 0⟩]).accuracy_rate =
      some (((apply_reviews (UserWordProgress.create 1 2 0)
          [⟨true, none, none, 0⟩]).correct_reviews : ℚ) /
        ((apply_reviews (UserWordProgress.create 1 2 0)
          [⟨true, none, none, 0⟩]).total_reviews : ℚ)) :=
  (srs_invariants 1 2 0 [⟨true, none, none, 0⟩]).2.2.2.2 (by decide)

/-- C9: the operation `create_or_get_progress` returns the existing record of a
(user, word) pair instead of creating a new one; calling it twice in
sequence yields the same record both times with no second insertion, and
it preserves "at most one record per (user, word) pair". -/
theorem create_or_get_progress_idempotent (store : List UserWordProgress)
    (u w now now2 : ℤ) :
    (∀ p, get_by_user_and_word store u w = some p →
      create_or_get_progress store u w now = (p, store)) ∧
    (create_or_get_progress (create_or_get_progress store u w now).2 u w now2 =
      ((create_or_get_progress store u w now).1,
       (create_or_get_progress store u w now).2)) ∧
    ((∀ u' w', (store.filter
        (fun r => r.user_id == u' && r.word_id == w')).length ≤ 1) →
     ∀ u' w', (((create_or_get_progress store u w now).2).filter
        (fun r => r.user_id == u' && r.word_id == w')).length ≤ 1) := by
  have hself : ∀ n : ℤ, ((UserWordProgress.create u w n).user_id == u
      && (UserWordProgress.create u w n).word_id == w) = true := by
    intro n
    show ((u == u) && (w == w)) = true
    simp
  refine ⟨fun p hp => ?_, ?_, fun huniq u' w' => ?_⟩
  · unfold create_or_get_progress
    rw [hp]
  · rcases h : get_by_user_and_word store u w with _ | p
    · have hfind : get_by_user_and_word (store ++ [UserWordProgress.create u w now]) u w
          = some (UserWordProgress.create u w now) := by
        unfold get_by_user_and_word at h ⊢
        rw [List.find?_append, h, Option.none_or]
        simp only [List.find?_cons, hself now]
      unfold create_or_get_progress
      simp only [h, hfind]
    · unfold create_or_get_progress
      simp only [h]
  · rcases h : get_by_user_and_word store u w with _ | p
    · unfold create_or_get_progress
      simp only [h]
      rw [List.filter_append]
      by_cases hc : ((UserWordProgress.create u w now).user_id == u'
          && (UserWordProgress.create u w now).word_id == w') = true
      · have hc' : ((u == u') && (w == w')) = true := hc
        rw [Bool.and_eq_true, beq_iff_eq, beq_iff_eq] at hc'
        have hnil : store.filter (fun r => r.user_id == u' && r.word_id == w') = [] := by
          rw [List.filter_eq_nil_iff]
          intro a ha hpa
          have hnone := (List.find?_eq_none.mp h) a ha
          rw [← hc'.1, ← hc'.2] at hpa
          exact hnone hpa
        rw [hnil]
        simp [List.filter_cons, hc]
      · have hone : List.filter (fun r => r.user_id == u' && r.word_id == w')
            [UserWordProgress.create u w now] = [] := by
          simp only [List.filter_cons, hc, List.filter_nil, if_neg]
          rw [if_neg (by simp [hc])]
        rw [hone, List.append_nil]
        exact huniq u' w'
    · unfold create_or_get_progress
      simp only [h]
      exact huniq u' w'

/-- Witness for C9: on a store already holding the pair, the existing
record is returned and the store is unchanged. -/
theorem create_or_get_progress_idempotent_witness :
    create_or_get_progress [UserWordProgress.create 1 2 0] 1 2 5 =
      (UserWordProgress.create 1 2 0, [UserWordProgress.create 1 2 0]) :=
  (create_or_get_progress_idempotent [UserWordProgress.create 1 2 0] 1 2 5 0).1
    (UserWordProgress.create 1 2 0) (by decide)

/-- C7: The daily session plan includes every due record (due
reviews are never dropped, even beyond the quota), requests exactly
`max 0 (quota - count due)` new words from the supply excluding every
word id the user already has a record for, returns `total_count = count
due + count supplied`, and requests nothing when the quota is already
  filled or non-positive. -/
theorem get_daily_learning_words_plan (store : List UserWordProgress)
    (supply : ℤ → List ℤ → List ℤ) (u quota now : ℤ) :
    (get_daily_learning_words store supply u quota now true true).1.review_words =
      get_words_due_for_review store u now ∧
    (∀ r ∈ store, r.user_id = u → r.next_review_at ≤ now →
      r ∈ (get_daily_learning_words store supply u quota now true true).1.review_words) ∧
    (get_daily_learning_words store supply u quota now true true).1.new_words =
      (if 0 < max 0 (quota - (get_words_due_for_review store u now).length)
       then supply (max 0 (quota - (get_words_due_for_review store u now).length))
              (get_user_learned_word_ids store u)
       else []) ∧
    (∀ r ∈ store, r.user_id = u →
      r.word_id ∈ get_user_learned_word_ids store u) ∧
    (get_daily_learning_words store supply u quota now true true).1.total_count =
      (get_words_due_for_review store u now).length +
      (get_daily_learning_words store supply u quota now true true).1.new_words.length ∧
    (quota ≤ 0 →
      (get_daily_learning_words store supply u quota now true true).1.new_words = []) := by
  have h1 : (get_daily_learning_words store supply u quota now true true).1.review_words =
      get_words_due_for_review store u now := by
    unfold get_daily_learning_words
    dsimp only
    rw [if_pos rfl, if_pos rfl]
    split_ifs <;> rfl
  refine ⟨h1, fun r hr hu hd => ?_, ?_, fun r hr hu => ?_, ?_, fun hq => ?_⟩
  · rw [h1]
    unfold get_words_due_for_review
    rw [List.mem_insertionSort, List.mem_filter]
    exact ⟨hr, by simp [hu, hd]⟩
  · unfold get_daily_learning_words
    dsimp only
    rw [if_pos rfl, if_pos rfl]
    split_ifs <;> rfl
  · unfold get_user_learned_word_ids
    rw [List.mem_map]
    exact ⟨r, List.mem_filter.mpr ⟨hr, by simp [hu]⟩, rfl⟩
  · unfold get_daily_learning_words
    dsimp only
    rw [if_pos rfl, if_pos rfl]
    split_ifs <;> rfl
  · unfold get_daily_learning_words
    dsimp only
    rw [if_pos rfl, if_pos rfl]
    have hlen : (0:ℤ) ≤ ((get_words_due_for_review store u now).length : ℤ) := by
      positivity
    rw [if_neg (by omega)]

/-- Witness for C7: a store with one due and one not-yet-due record; the
due one is in the session. -/
theorem get_daily_learning_words_plan_witness :
    UserWordProgress.create 1 10 0 ∈
      (get_daily_learning_words
        [UserWordProgress.create 1 10 0, UserWordProgress.create 1 11 99]
        (fun _ _ => []) 1 5 5 true true).1.review_words :=
  (get_daily_learning_words_plan
      [UserWordProgress.create 1 10 0, UserWordProgress.create 1 11 99]
      (fun _ _ => []) 1 5 5).2.1
    (UserWordProgress.create 1 10 0) (by decide) rfl (by decide)

/-- C8 (amended): A supply shortfall is not an error: the planner
still returns a result whose `total_count` counts only the words
actually obtained (due reviews plus supplied words). -/
theorem get_daily_learning_words_short_supply (store : List UserWordProgress)
    (supply : ℤ → List ℤ → List ℤ) (u quota now : ℤ) :
    (get_daily_learning_words store supply u quota now true true).1.total_count =
      (get_daily_learning_words store supply u quota now true true).1.review_words.length +
      (get_daily_learning_words store supply u quota now true true).1.new_words.length := by
  unfold get_daily_learning_words
  dsimp only
  split_ifs <;> rfl

/-- C8 (counterexample): The result of `get_daily_learning_words`
carries no field signaling a partial assignment: with two due reviews
and a supply that always returns one word, the quota-5 call (3 words
requested, 1 obtained — partial) returns a result *equal* to that of the
quota-3 call (1 requested, 1 obtained — complete), so no function of the
result can distinguish the partial session from the complete one. -/
theorem get_daily_learning_words_no_partial_field :
    (get_daily_learning_words
        [UserWordProgress.create 1 10 0, UserWordProgress.create 1 11 0]
        (fun _ _ => [100]) 1 5 5 true true).1 =
      (get_daily_learning_words
        [UserWordProgress.create 1 10 0, UserWordProgress.create 1 11 0]
        (fun _ _ => [100]) 1 3 5 true true).1 ∧
    max 0 (5 - ((get_words_due_for_review
        [UserWordProgress.create 1 10 0, UserWordProgress.create 1 11 0] 1 5).length : ℤ))
      = 3 ∧
    max 0 (3 - ((get_words_due_for_review
        [UserWordProgress.create 1 10 0, UserWordProgress.create 1 11 0] 1 5).length : ℤ))
      = 1 ∧
    (get_daily_learning_words
        [UserWordProgress.create 1 10 0, UserWordProgress.create 1 11 0]
        (fun _ _ => [100]) 1 5 5 true true).1.new_words.length = 1 := by
  decide

/-- C6 (amended): Recording a review for a pair with no existing
record returns `none` and leaves the store unchanged — failure is
signaled by the empty result, no exception type exists — and no input
validation is performed: for an existing record the call succeeds for
*every* `response_time` and `difficulty_rating`, including negative
times and out-of-range ratings. -/
theorem record_word_review_missing_and_existing (store : List UserWordProgress)
    (u w : ℤ) (c : Bool) (rt : Option ℚ) (dr : Option ℤ) (now : ℤ) :
    (get_by_user_and_word store u w = none →
      record_word_review store u w c rt dr now = (none, store)) ∧
    (∀ p, get_by_user_and_word store u w = some p →
      (record_word_review store u w c rt dr now).1 =
        some (p.record_review c rt dr now)) := by
  constructor
  · intro h
    unfold record_word_review
    rw [h]
  · intro p hp
    unfold record_word_review
    rw [hp]

/-- Witness for the amended C6: a review against an empty store returns
`none` and writes nothing. -/
theorem record_word_review_missing_and_existing_witness :
    record_word_review [] 1 2 true (some 1) (some 3) 0 = (none, []) :=
  (record_word_review_missing_and_existing [] 1 2 true (some 1) (some 3) 0).1 rfl

/-- C6 (counterexample): Invalid input is *not* rejected before
mutation: with `response_time = -1` and `difficulty_rating = 9` the call
on an existing record succeeds and mutates it (`total_reviews` becomes
1, the out-of-range rating is stored verbatim), refuting "fails with
InvalidArgument before any mutation, leaving the record's state
completely unchanged". -/
theorem record_word_review_accepts_invalid_input :
    (record_word_review [UserWordProgress.create 1 2 0] 1 2 true
        (some (-1)) (some 9) 3).1.isSome = true ∧
    ((record_word_review [UserWordProgress.create 1 2 0] 1 2 true
        (some (-1)) (some 9) 3).2.map (fun r => r.total_reviews)) = [1] ∧
    ((record_word_review [UserWordProgress.create 1 2 0] 1 2 true
        (some (-1)) (some 9) 3).2.map (fun r => r.difficulty_rating)) = [some 9] ∧
    ([UserWordProgress.create 1 2 0].map (fun r => r.total_reviews)) = [0] := by
  decide

end Vocala
